import Mathlib

/-!
Shallow embedding of `src/ipcbuf.c` (jschauma/ipcbuf), a tool that probes the
kernel buffer capacity of an IPC channel with nonblocking writes.

Modelling conventions:
* The kernel side of each `write(2)` / `read(2)` / ioctl call is an oracle
  function passed to the embedded code: for writes, a function from the
  requested byte count to the call's outcome (a byte count `n ≥ 0`, or `-1`
  with an errno).  One `writeChunk` call queries each size at most once
  (the retried sizes strictly decrease), so an oracle indexed by the size is
  faithful; across separate `writeChunk` calls the oracle is additionally
  indexed by the call number.
* C `int` byte counts are modelled as `Nat`.  The only spot where an `int`
  could go negative is `count--` in `writeChunk` for `count = 0`; there the C
  code takes the `count < 1` exit exactly as the `Nat` model takes its
  `count ≤ 1` exit, so the observable behaviour agrees.  `int` overflow of
  the byte totals is not modelled.
* The unbounded `while (1)` loops (`writeLoop`, the drain loop of `readData`)
  are embedded with an explicit fuel parameter; `none` means the loop had not
  stopped after `fuel` rounds.  A running C loop corresponds to a family of
  `none` results for every fuel.
-/

deriving instance DecidableEq for Except

/-- Errno values `writeChunk` and `readData` in `src/ipcbuf.c` distinguish:
`EMSGSIZE` and `ENOBUFS` drive the shrink-and-retry path, `EAGAIN` is the
would-block signal, and `other` stands for every remaining errno value. -/
inductive Errno where
  | EMSGSIZE
  | ENOBUFS
  | EAGAIN
  | other
  deriving DecidableEq, Repr

/-- Outcome of one `write(2)` (or `read(2)`) system call as the program sees
it: a byte count `n ≥ 0`, or `-1` together with the errno value. -/
inductive WriteRes where
  | ok (n : Nat)
  | fail (e : Errno)
  deriving DecidableEq, Repr

/-- Result of `read(2)`: same shape as a write result. -/
abbrev ReadRes := WriteRes

/-- Return of `writeChunk` (`src/ipcbuf.c` lines 193-245).  `fatal` is the
`err(EXIT_FAILURE, "write")` abort; `negZero` is the `return -1` after the
"Unable to write even a single byte" report (size shrank below one);
`negAgain` is the `return -1` on `EAGAIN`; `wrote n` is `return n` for a
write that reported `n ≥ 0` bytes. -/
inductive ChunkRet where
  | fatal
  | negZero
  | negAgain
  | wrote (n : Nat)
  deriving DecidableEq, Repr

/-- The two globals of `src/ipcbuf.c` that `writeChunk` mutates:
`TOTAL` (line 85) and `LARGEST_CHUNK` (line 87). -/
structure GState where
  TOTAL : Nat
  LARGEST_CHUNK : Nat
  deriving DecidableEq, Repr

/-- `writeChunk(fd, count)` of `src/ipcbuf.c` lines 193-245 against the write
oracle `k`.  The C control flow is:
`again: if ((n = write(fd, buf, count)) < 0)` then on `EMSGSIZE`/`ENOBUFS`
do `count--; if (count < 1) return -1; goto again;`, on `EAGAIN` `return -1`,
otherwise `err(EXIT_FAILURE, "write")`; on success `TOTAL += n`, then
`if (n > LARGEST_CHUNK) LARGEST_CHUNK = n;` and `return n`.
`count ≤ 1` (the patterns `0` and `1`) is exactly C's `count < 1` after the
decrement. -/
def writeChunk (k : Nat → WriteRes) : Nat → GState → ChunkRet × GState
  | count, g =>
    match k count with
    | .ok n =>
        (.wrote n,
          ⟨g.TOTAL + n, if n > g.LARGEST_CHUNK then n else g.LARGEST_CHUNK⟩)
    | .fail .EMSGSIZE | .fail .ENOBUFS =>
        match count with
        | 0 => (.negZero, g)
        | 1 => (.negZero, g)
        | c + 2 => writeChunk k (c + 1) g
    | .fail .EAGAIN => (.negAgain, g)
    | .fail .other => (.fatal, g)

/-- The sizes a single `writeChunk` call passes to `write(2)`, in order: the
initial `count` followed by the shrink-and-retry sizes.  A retry happens
exactly when the oracle answers `EMSGSIZE`/`ENOBUFS` and the decremented size
is still at least one, so for `count ≤ 1` the list is the single initial
attempt whatever the oracle answers. -/
def chunkAttempts (k : Nat → WriteRes) : Nat → List Nat
  | 0 => [0]
  | 1 => [1]
  | c + 2 =>
    (c + 2) ::
      (match k (c + 2) with
       | .fail .EMSGSIZE | .fail .ENOBUFS => chunkAttempts k (c + 1)
       | _ => [])

/-- A sanity check oracle: every write fails with `EMSGSIZE`. -/
def kMsg : Nat → WriteRes := fun _ => .fail .EMSGSIZE

/-- A sanity check oracle: every write fails with `EAGAIN`. -/
def kAgainOne : Nat → WriteRes := fun _ => .fail .EAGAIN

/-- Size update at the bottom of the `writeLoop` body (`src/ipcbuf.c` lines
261-265): `if (inc == -1) count *= 2; else count += inc;`.  `none` models the
sentinel value `-1` of the global `CHUNK2` (an unset second argument), `some
k` a user-supplied increment `k ≥ 0` (`inputNumber(argv[1], 0)` rules out
negative increments). -/
def nextCount (inc : Option Nat) (count : Nat) : Nat :=
  match inc with
  | none => count * 2
  | some k => count + k

/-- How `writeLoop` ended, with ghost instrumentation for the statements:
`i` is the final value of the C iteration counter; `accepted` lists, in
order, the requested sizes of the `writeChunk` calls that returned their full
requested size (the calls after which the loop went on); `lastReq` and
`lastRes` are the requested size and the result of the `writeChunk` call on
which the loop broke. -/
structure LoopDone where
  i : Nat
  g : GState
  accepted : List Nat
  lastReq : Nat
  lastRes : ChunkRet
  deriving DecidableEq, Repr

/-- Result of `writeLoop`: `fatal` when a `writeChunk` call aborted the
process, `done` when the loop broke out. -/
inductive LoopResult where
  | fatal (g : GState)
  | done (d : LoopDone)
  deriving DecidableEq, Repr

/-- `writeLoop(fd, count, inc)` of `src/ipcbuf.c` lines 247-271 with explicit
fuel.  The body is `n = writeChunk(fd, count); if ((n != count) || (n < 0)) {
if (n > 0) i++; break; } if (inc == -1) count *= 2; else count += inc; i++;`.
`K j` is the write oracle for the `j`-th `writeChunk` call of the loop; `j`
equals `acc.length`, the number of earlier calls, because every earlier call
returned its full size (a call that does not ends the loop).  `none` means
the loop was still running after `fuel` rounds. -/
def writeLoopGo (K : Nat → Nat → WriteRes) (inc : Option Nat) :
    Nat → Nat → Nat → GState → List Nat → Option LoopResult
  | 0, _, _, _, _ => none
  | fuel + 1, count, i, g, acc =>
    match writeChunk (K acc.length) count g with
    | (.fatal, g1) => some (.fatal g1)
    | (.negZero, g1) => some (.done ⟨i, g1, acc, count, .negZero⟩)
    | (.negAgain, g1) => some (.done ⟨i, g1, acc, count, .negAgain⟩)
    | (.wrote n, g1) =>
        if n = count then
          writeLoopGo K inc fuel (nextCount inc count) (i + 1) g1 (acc ++ [count])
        else
          some (.done ⟨if n > 0 then i + 1 else i, g1, acc, count, .wrote n⟩)

/-- Is `CHUNK2 < 1`, the test at `src/ipcbuf.c` line 457 that makes chunk
mode treat the second chunk size as unset (`CHUNK2` is `-1` when no second
positional argument was given, and may be `0` when the user passed `0`). -/
def chunkUnset (c2 : Option Nat) : Bool :=
  match c2 with
  | none => true
  | some m => decide (m < 1)

/-- Starting value of `i` in the chunk-mode branch of `writeData`
(`src/ipcbuf.c` lines 456-460): `0`, or `1` when `CHUNK2 < 1`. -/
def chunkStart (c2 : Option Nat) : Nat :=
  if chunkUnset c2 then 1 else 0

/-- Effective second chunk size: `CHUNK2`, or `CHUNK1` when `CHUNK2 < 1`
(the assignment `CHUNK2 = CHUNK1` at `src/ipcbuf.c` line 459). -/
def chunkEff (c1 : Nat) (c2 : Option Nat) : Nat :=
  if chunkUnset c2 then c1 else c2.getD 0

/-- Outcome of the chunk-mode burst: the final globals, the `writeChunk`
results of the calls that actually ran (in order), and whether a call hit
the unhandled-errno abort `err(EXIT_FAILURE, "write")` at `src/ipcbuf.c`
line 227 — after which the process is dead and the remaining writes of the
burst never happen. -/
structure BurstOut where
  g : GState
  results : List ChunkRet
  aborted : Bool
  deriving DecidableEq, Repr

/-- The loop `for (; i < NUM_CHUNKS; i++) { writeChunk(fd, CHUNK2); }` at
`src/ipcbuf.c` lines 477-479, unrolled over its trip count `m` (the loop
runs `NUM_CHUNKS - i` times for the starting `i`).  `j` numbers the
`writeChunk` calls of the whole chunk-mode run for the oracle.  A `-1`
return (would-block, or shrunk to zero) does not stop the loop — the next
chunk is still attempted — but a `fatal` result is `err(EXIT_FAILURE,
"write")` aborting the process, so it ends the burst at that call. -/
def writeChunksN (K : Nat → Nat → WriteRes) (c : Nat) :
    Nat → Nat → GState → BurstOut
  | _, 0, g => ⟨g, [], false⟩
  | j, m + 1, g =>
    match writeChunk (K j) c g with
    | (.fatal, g1) => ⟨g1, [.fatal], true⟩
    | (r, g1) =>
        let o := writeChunksN K c (j + 1) m g1
        ⟨o.g, r :: o.results, o.aborted⟩

/-- The chunk-mode branch of `writeData` (`src/ipcbuf.c` lines 455-480):
`int i = 0; if (CHUNK2 < 1) { i = 1; CHUNK2 = CHUNK1; } ...
writeChunk(fd, CHUNK1); for (; i < NUM_CHUNKS; i++) writeChunk(fd, CHUNK2);`.
One write of `CHUNK1` happens first; unless that call aborts the process,
the `NUM_CHUNKS - chunkStart c2` writes of the effective second size
follow, each attempted whatever non-fatal results came before; a fatal
`writeChunk` (unhandled errno) aborts the process mid-burst and the
remaining writes never happen. -/
def writeDataChunk (K : Nat → Nat → WriteRes) (c1 : Nat) (c2 : Option Nat)
    (num : Nat) (g : GState) : BurstOut :=
  match writeChunk (K 0) c1 g with
  | (.fatal, g1) => ⟨g1, [.fatal], true⟩
  | (r1, g1) =>
      let o := writeChunksN K (chunkEff c1 c2) 1 (num - chunkStart c2) g1
      ⟨o.g, r1 :: o.results, o.aborted⟩

/-- `BUFSIZ` of stdio: its exact value is platform glue; only `bufsizOf
largest ≥ largest` matters to the drain claims. -/
def BUFSIZ : Nat := 1024

/-- The read buffer size of `readData` (`src/ipcbuf.c` lines 504-507):
`int bufsiz = BUFSIZ; if (LARGEST_CHUNK > bufsiz) bufsiz = LARGEST_CHUNK;`. -/
def bufsizOf (largest : Nat) : Nat :=
  if largest > BUFSIZ then largest else BUFSIZ

/-- Result of the drain loop of `readData`: a fatal `err(EXIT_FAILURE,
"read")`, or the loop broke with the accumulated byte count `total` and
(ghost) the list of byte counts the successful `read(2)` calls returned. -/
inductive DrainResult where
  | fatalErr
  | done (total : Nat) (reads : List Nat)
  deriving DecidableEq, Repr

/-- The drain loop of `readData` (`src/ipcbuf.c` lines 518-537) with explicit
fuel.  `Q j` is the queue-depth the FIONREAD-style query reports before the
`j`-th read (`printFdQueueSize(fd, "read")`, which returns `-1` when the
query is unsupported for the transport); `R j` is the `j`-th `read(2)`
outcome.  The body: break when the queried depth is exactly `0`; read; on
`EAGAIN` break, on any other errno abort fatally; `total += nr`; break when
`nr == 0` (EOF). -/
def readDataGo (Q : Nat → Int) (R : Nat → ReadRes) :
    Nat → Nat → Nat → List Nat → Option DrainResult
  | 0, _, _, _ => none
  | fuel + 1, j, total, reads =>
    if Q j = 0 then some (.done total reads)
    else
      match R j with
      | .fail .EAGAIN => some (.done total reads)
      | .fail _ => some .fatalErr
      | .ok n =>
          if n = 0 then some (.done (total + n) (reads ++ [n]))
          else readDataGo Q R fuel (j + 1) (total + n) (reads ++ [n])

/-- The loop-vs-chunk mode enum of `src/ipcbuf.c` lines 69-72. -/
inductive Mode where
  | LOOP
  | CHUNK
  deriving DecidableEq, Repr

/-- The IPC variant enum of `src/ipcbuf.c` lines 74-79. -/
inductive IpcType where
  | IPC_PIPE
  | IPC_FIFO
  | IPC_SOCKETPAIR
  | IPC_SOCKET
  deriving DecidableEq, Repr

/-- Socket type selected by `parseArgs` (`SOCK_TYPE`, default `SOCK_DGRAM`). -/
inductive SockType where
  | SOCK_DGRAM
  | SOCK_STREAM
  deriving DecidableEq, Repr

/-- Socket domain selected by `parseArgs` (`SOCK_DOMAIN`, default `PF_LOCAL`). -/
inductive SockDomain where
  | PF_LOCAL
  | PF_INET
  | PF_INET6
  deriving DecidableEq, Repr

/-- Observable actions of the program, for ordering statements: system calls
that provision or touch the channel, the fcntl that makes an endpoint
nonblocking, write/read attempts, a report line of a run's output, and a
fatal `exit`/`err` with its message and exit status. -/
inductive Act where
  | setNonblock
  | queryQueue
  | writeAttempt (count : Nat)
  | readAttempt (bufsiz : Nat)
  | createPipe
  | createFifo
  | createSocket
  | createSocketPair
  | setPipeAttempt (n : Nat)
  | reportLine
  | fatalMsgExit (msg : String) (code : Nat)
  deriving DecidableEq, Repr

/-- The `writeChunk` calls of `writeLoop` as write actions (one per call
that actually runs, labelled with the requested size), following the loop
control flow of `src/ipcbuf.c` lines 247-271, paired with whether
`writeLoop` returned to `writeData` within the given fuel (`false`: a
fatal write aborted the process, or the loop was still running when the
fuel ran out — either way nothing after the loop happens). -/
def loopWriteActs (K : Nat → Nat → WriteRes) (inc : Option Nat) :
    Nat → Nat → Nat → GState → List Act × Bool
  | 0, _, _, _ => ([], false)
  | fuel + 1, count, j, g =>
    match writeChunk (K j) count g with
    | (.fatal, _) => ([Act.writeAttempt count], false)
    | (.negZero, _) => ([Act.writeAttempt count], true)
    | (.negAgain, _) => ([Act.writeAttempt count], true)
    | (.wrote n, g1) =>
        if n = count then
          let o := loopWriteActs K inc fuel (nextCount inc count) (j + 1) g1
          (Act.writeAttempt count :: o.1, o.2)
        else ([Act.writeAttempt count], true)

/-- The `writeChunk` calls of the chunk-mode for loop as write actions, one
per call that actually runs: a fatal call is the process aborting, so
nothing is emitted after it.  The `Bool` is `false` when the burst
aborted. -/
def chunkWriteActs (K : Nat → Nat → WriteRes) (c : Nat) :
    Nat → Nat → GState → List Act × Bool
  | _, 0, _ => ([], true)
  | j, m + 1, g =>
    match writeChunk (K j) c g with
    | (.fatal, _) => ([Act.writeAttempt c], false)
    | (_, g1) =>
        let o := chunkWriteActs K c (j + 1) m g1
        (Act.writeAttempt c :: o.1, o.2)

/-- `writeData(fd)` of `src/ipcbuf.c` lines 441-492 as an action trace.  The
first statement of the function is `fcntl(fd, F_SETFL, O_NONBLOCK)` (line
443), before the `printFdQueueSize(fd, "space")` query and before any
`writeChunk` of either mode; the trailing `printFdQueueSize(fd, "write")`
query and total report line run only when the mode branch returns — not
when a fatal write aborted the process, nor (in loop mode) while the loop
is still running at the given fuel. -/
def writeDataTrace (K : Nat → Nat → WriteRes) (mode : Mode) (c1 : Nat)
    (c2 : Option Nat) (num fuel : Nat) (g : GState) : List Act :=
  let o : List Act × Bool :=
    match mode with
    | .LOOP => loopWriteActs K c2 fuel c1 0 g
    | .CHUNK =>
        match writeChunk (K 0) c1 g with
        | (.fatal, _) => ([Act.writeAttempt c1], false)
        | (_, g1) =>
            let o1 := chunkWriteActs K (chunkEff c1 c2) 1 (num - chunkStart c2) g1
            (Act.writeAttempt c1 :: o1.1, o1.2)
  Act.setNonblock :: Act.queryQueue ::
    (o.1 ++ (if o.2 then [Act.queryQueue, Act.reportLine] else []))

/-- The reads of the drain loop as read actions (one per `read(2)` call,
labelled with the buffer size handed to `read`). -/
def drainReadActions (Q : Nat → Int) (R : Nat → ReadRes) (bufsiz : Nat) :
    Nat → Nat → List Act
  | 0, _ => []
  | fuel + 1, j =>
    if Q j = 0 then []
    else
      Act.readAttempt bufsiz ::
        (match R j with
         | .ok n => if n = 0 then [] else drainReadActions Q R bufsiz fuel (j + 1)
         | .fail _ => [])

/-- `readData(fd)` of `src/ipcbuf.c` lines 494-542 as an action trace: the
`fcntl(fd, F_SETFL, O_NONBLOCK)` at line 513 runs before the drain loop, so
before every `read(2)` of the run. -/
def readDataTrace (Q : Nat → Int) (R : Nat → ReadRes) (largest fuel : Nat) :
    List Act :=
  Act.setNonblock :: drainReadActions Q R (bufsizOf largest) fuel 0

/-- What `setPipeSize(fd)` (`src/ipcbuf.c` lines 292-310) does. -/
inductive PipeSizeOutcome where
  | skipped
  | fatalUnsupported
  | setAttempt (n : Nat)
  deriving DecidableEq, Repr

/-- The message of the fatal branch of `setPipeSize`. -/
def pipeSizeMsg : String :=
  "Sorry, setting the pipe size is not supported on this platform."

/-- `setPipeSize(fd)` of `src/ipcbuf.c` lines 292-310: return at once when
`SET_PIPEBUF == -1` (no `-P size` was given, modelled as `none`); otherwise,
on a platform without `F_SETPIPE_SZ` print the "not supported" message and
`exit(EXIT_FAILURE)`, and on a platform with it issue the fcntl. -/
def setPipeSize (hasSetPipeSz : Bool) (setPipebuf : Option Nat) : PipeSizeOutcome :=
  match setPipebuf with
  | none => .skipped
  | some n => if hasSetPipeSz then .setAttempt n else .fatalUnsupported

/-- The opening of `doPipe()` (`src/ipcbuf.c` lines 581-627) as an action
trace: `pipe(fd)`, then `setPipeSize(fd[1])`, then the rest of the run
(`reportTest`, the PIPE_BUF/F_GETPIPE_SZ reporting, `writeData`, `readData`
— abstracted as `rest`, since the fatal branch of `setPipeSize` exits the
process with status `EXIT_FAILURE = 1` and none of `rest` runs). -/
def doPipeTrace (hasSetPipeSz : Bool) (setPipebuf : Option Nat)
    (rest : List Act) : List Act :=
  Act.createPipe ::
    (match setPipeSize hasSetPipeSz setPipebuf with
     | .skipped => rest
     | .setAttempt n => Act.setPipeAttempt n :: rest
     | .fatalUnsupported => [Act.fatalMsgExit pipeSizeMsg 1])

/-- Value of the leading decimal-digit run of a character list, `strtol`
style: `"123abc"` gives `123`, a list with no leading digit gives `0`. -/
def leadingNumGo : List Char → Nat → Nat
  | [], acc => acc
  | c :: cs, acc =>
      if c.isDigit then leadingNumGo cs (acc * 10 + (c.toNat - 48)) else acc

/-- `strtol(in, NULL, 10)` as `inputNumber` uses it (`src/ipcbuf.c` line
315): skip leading whitespace, an optional sign, then the value of the
leading digit run — `0` when there is none, so a non-numeric string parses
as `0` without any error indication (the `endptr` argument is `NULL`).
C strings are modelled as `List Char`.  `long` overflow clamping is not
modelled (the claims never reach it). -/
def strtol10 (s : List Char) : Int :=
  match s.dropWhile Char.isWhitespace with
  | '-' :: rest => -(leadingNumGo rest 0 : Int)
  | '+' :: rest => (leadingNumGo rest 0 : Int)
  | cs => (leadingNumGo cs 0 : Int)

/-- The error message of `inputNumber` (modulo the printf placeholder). -/
def inputNumberMsg : String := "Please provide a number >= threshold."

/-- `inputNumber(in, threshold)` of `src/ipcbuf.c` lines 312-321:
`n = (int)strtol(in, NULL, 10); if (n < threshold) { fprintf(...);
exit(EXIT_FAILURE); } return n;`.  The `exit(EXIT_FAILURE)` is the `.error`
case. -/
def inputNumber (s : List Char) (threshold : Int) : Except String Int :=
  if strtol10 s < threshold then .error inputNumberMsg else .ok (strtol10 s)

/-- Is a string a plain decimal numeral, possibly signed?  This is the
spec side of "non-numeric argument" (the claim about configuration errors);
it is not a function of the C program. -/
def isNumericStr (s : List Char) : Bool :=
  let cs := match s with
    | '-' :: rest => rest
    | '+' :: rest => rest
    | cs => cs
  !cs.isEmpty && cs.all Char.isDigit

/-- Lower-casing of an ASCII byte, for `strcasecmp`. -/
def lowerByte (n : Nat) : Nat :=
  if 65 ≤ n ∧ n ≤ 90 then n + 32 else n

/-- `strcasecmp(s, t) == 0`: equality after ASCII lower-casing. -/
def caseEqStr (s t : List Char) : Bool :=
  s.map (fun c => lowerByte c.toNat) == t.map (fun c => lowerByte c.toNat)

/-- `strncmp(s, pre, strlen(pre)) == 0`: does `s` start with `pre`? -/
def startsWithStr : List Char → List Char → Bool
  | _, [] => true
  | [], _ :: _ => false
  | a :: as, p :: ps => a == p && startsWithStr as ps

/-- The option values the getopt(3) loop of `parseArgs` (`src/ipcbuf.c`
lines 332-373) extracts before the validation phase.  The scanning itself is
libc; each field carries the `optarg` value of the corresponding option (or
`none` when the option was not given), `mode` the final value of `MODE`
after the `-c`/`-l` switches, `quiet` the `-q` flag, and `positionals` the
arguments left after `argv += optind`. -/
structure CmdOpts where
  pArg : Option (List Char)
  rArg : Option (List Char)
  sBufArg : Option (List Char)
  nArg : Option (List Char)
  mode : Mode
  quiet : Bool
  sTypeArg : Option (List Char)
  tArg : Option (List Char)
  positionals : List (List Char)
  deriving DecidableEq, Repr

/-- The configuration globals of `src/ipcbuf.c` lines 81-97 as `parseArgs`
leaves them (field order: IPC_TYPE, MODE, CHUNK1, CHUNK2, NUM_CHUNKS, QUIET,
SET_RCVBUF, SET_SNDBUF, SET_PIPEBUF, SOCK_TYPE, SOCK_DOMAIN).  The `Int`
fields use the C sentinel `-1` for "not set". -/
structure RunConfig where
  IPC_TYPE : IpcType
  MODE : Mode
  CHUNK1 : Int
  CHUNK2 : Int
  NUM_CHUNKS : Int
  QUIET : Bool
  SET_RCVBUF : Int
  SET_SNDBUF : Int
  SET_PIPEBUF : Int
  SOCK_TYPE : SockType
  SOCK_DOMAIN : SockDomain
  deriving DecidableEq, Repr

/-- `parseArgs(argc, argv)` of `src/ipcbuf.c` lines 323-439 after getopt
extraction: the `inputNumber` conversions of the getopt cases `'P'`, `'R'`,
`'S'`, `'n'`, then in source order the `argc > 2` usage check, the `-t` type
mapping (an unrecognized value silently leaves the default `IPC_PIPE`), the
`-P`-with-non-pipe check, the `-s`-with-non-socket check, the
`inet*`-with-non-socket check, the `inet-`/`inet6-` prefix stripping, the
`stream`/`dgram` check, and the positional `CHUNK1`/`CHUNK2` conversions.
Every `.error` is an `exit(EXIT_FAILURE)` in the C code. -/
def parseArgsModel (o : CmdOpts) : Except String RunConfig := do
  let setPipebuf : Int ← match o.pArg with
    | none => pure (-1)
    | some s => inputNumber s 1
  let setRcvbuf : Int ← match o.rArg with
    | none => pure (-1)
    | some s => inputNumber s 1
  let setSndbuf : Int ← match o.sBufArg with
    | none => pure (-1)
    | some s => inputNumber s 1
  let numChunks : Int ← match o.nArg with
    | none => pure 1
    | some s => inputNumber s 0
  if o.positionals.length > 2 then
    throw "usage"
  let ipcType : IpcType :=
    match o.tArg with
    | none => .IPC_PIPE
    | some t =>
        if caseEqStr t "fifo".toList then .IPC_FIFO
        else if caseEqStr t "pipe".toList then .IPC_PIPE
        else if caseEqStr t "socket".toList then .IPC_SOCKET
        else if caseEqStr t "socketpair".toList then .IPC_SOCKETPAIR
        else .IPC_PIPE
  if ipcType ≠ .IPC_PIPE ∧ setPipebuf ≠ -1 then
    throw "Setting the pipe size only makes sense with -t pipe."
  if o.sTypeArg.isSome ∧ ipcType ≠ .IPC_SOCKET ∧ ipcType ≠ .IPC_SOCKETPAIR then
    throw "Setting the socket type only makes sense with -t socket or -t socketpair."
  let sockTypeStr : List Char := o.sTypeArg.getD "DGRAM".toList
  if startsWithStr sockTypeStr "inet".toList ∧ ipcType ≠ .IPC_SOCKET then
    throw "inet type sockets can only be specified with -t socket."
  let stripped : SockDomain × List Char :=
    if startsWithStr sockTypeStr "inet-".toList then (.PF_INET, sockTypeStr.drop 5)
    else if startsWithStr sockTypeStr "inet6-".toList then (.PF_INET6, sockTypeStr.drop 6)
    else (.PF_LOCAL, sockTypeStr)
  let sockType : SockType ←
    if caseEqStr stripped.2 "stream".toList then pure .SOCK_STREAM
    else if caseEqStr stripped.2 "dgram".toList then pure .SOCK_DGRAM
    else throw "Invalid socket type."
  let chunk1 : Int ← match o.positionals[0]? with
    | none => pure 1
    | some s => inputNumber s 0
  let chunk2 : Int ← match o.positionals[1]? with
    | none => pure (-1)
    | some s => inputNumber s 0
  pure ⟨ipcType, o.mode, chunk1, chunk2, numChunks, o.quiet,
        setRcvbuf, setSndbuf, setPipebuf, sockType, stripped.1⟩

/-- `main` of `src/ipcbuf.c` lines 936-963 as an action trace: `parseArgs`
runs first, and each of its error paths is an `exit(EXIT_FAILURE)` taken
before `atexit` is installed and before the `doFifo`/`doPipe`/`doSocket`/
`doSocketpair` dispatch, so before any pipe, fifo, socket or filesystem
resource exists.  `runOf` abstracts the dispatched run for a successfully
parsed configuration. -/
def mainTrace (o : CmdOpts) (runOf : RunConfig → List Act) : List Act :=
  match parseArgsModel o with
  | .error _ => [Act.fatalMsgExit "configuration error" 1]
  | .ok cfg => runOf cfg

/-- `CmdOpts` with nothing set, for concrete runs. -/
def defaultOpts : CmdOpts :=
  ⟨none, none, none, none, .LOOP, false, none, none, []⟩

/-- Write oracle that accepts every write in full. -/
def KOk : Nat → Nat → WriteRes := fun _ c => .ok c

/-- Write oracle that reports `EAGAIN` for every write. -/
def KAgain : Nat → Nat → WriteRes := fun _ _ => .fail .EAGAIN

/-- Write oracle that answers every write with `0` bytes written (what a
pipe reports for a zero-byte `write(2)`). -/
def KZero : Nat → Nat → WriteRes := fun _ _ => .ok 0

/-- Write oracle that accepts the first two writes in full, then reports
`EAGAIN`. -/
def KCap2 : Nat → Nat → WriteRes :=
  fun j c => if j < 2 then .ok c else .fail .EAGAIN

/-- Write oracle that fails every write with an errno the program does not
handle (the fatal class). -/
def KOther : Nat → Nat → WriteRes := fun _ _ => .fail .other

/-- A write oracle never reports more bytes written than were requested. -/
def KernelOK1 (k : Nat → WriteRes) : Prop :=
  ∀ c n, k c = .ok n → n ≤ c

/-- Well-formedness of a per-call write oracle family. -/
def KernelOK (K : Nat → Nat → WriteRes) : Prop :=
  ∀ j, KernelOK1 (K j)

/-- Bytes the `writeChunk` call that broke the loop added to `TOTAL`:
`n` for a (partial) write of `n` bytes, nothing for the `-1` returns. -/
def lastBytes : ChunkRet → Nat
  | .wrote n => n
  | _ => 0

/-- The `if (n > 0) i++;` of the loop break (`src/ipcbuf.c` line 256): the
breaking call is counted as an iteration only when it wrote at least one
byte. -/
def stopBonus : ChunkRet → Nat
  | .wrote n => if n > 0 then 1 else 0
  | _ => 0

/-- Did the loop terminate from a given start size with doubling?  (Defined
so that its failure can be stated without binders.) -/
def loopTerminatesFrom (K : Nat → Nat → WriteRes) (count : Nat) : Prop :=
  ∃ fuel r, writeLoopGo K none fuel count 0 ⟨0, 0⟩ [] = some r

/-!
Concrete evaluations of the embedded functions (sanity checks for the
definitions above).
-/

example : writeChunk kMsg 3 ⟨0, 0⟩ = (.negZero, ⟨0, 0⟩) := by decide
example : chunkAttempts kMsg 4 = [4, 3, 2, 1] := by decide
example : writeChunk kAgainOne 3 ⟨5, 2⟩ = (.negAgain, ⟨5, 2⟩) := by decide
example : writeChunk (fun c => if c ≥ 4 then .fail .ENOBUFS else .ok 2) 5 ⟨1, 1⟩ =
    (.wrote 2, ⟨3, 2⟩) := by decide
example : writeLoopGo (fun _ c => if c < 4 then .ok c else .fail .EAGAIN) none
    10 1 0 ⟨0, 0⟩ [] = some (.done ⟨2, ⟨3, 2⟩, [1, 2], 4, .negAgain⟩) := by decide
example : writeDataChunk (fun _ c => .ok c) 1 none 1 ⟨0, 0⟩ =
    ⟨⟨1, 1⟩, [.wrote 1], false⟩ := by decide
example : writeDataChunk (fun _ c => .ok c) 1 (some 2) 3 ⟨0, 0⟩ =
    ⟨⟨7, 2⟩, [.wrote 1, .wrote 2, .wrote 2, .wrote 2], false⟩ := by decide
example : writeDataChunk (fun j c => if j < 2 then .ok c else .fail .other)
    1 (some 2) 3 ⟨0, 0⟩ = ⟨⟨3, 2⟩, [.wrote 1, .wrote 2, .fatal], true⟩ := by decide
example : writeDataChunk (fun _ _ => .fail .other) 1 (some 2) 3 ⟨0, 0⟩ =
    ⟨⟨0, 0⟩, [.fatal], true⟩ := by decide
example : readDataGo (fun _ => 5) (fun j => if j < 2 then .ok 3 else .fail .EAGAIN)
    10 0 0 [] = some (.done 6 [3, 3]) := by decide
example : writeDataTrace KOther .CHUNK 5 (some 2) 3 10 ⟨0, 0⟩ =
    [Act.setNonblock, Act.queryQueue, Act.writeAttempt 5] := by decide
example : writeDataTrace KOk .CHUNK 5 (some 2) 1 10 ⟨0, 0⟩ =
    [Act.setNonblock, Act.queryQueue, Act.writeAttempt 5, Act.writeAttempt 2,
     Act.queryQueue, Act.reportLine] := by decide
example : writeDataTrace KAgain .LOOP 1 none 1 10 ⟨0, 0⟩ =
    [Act.setNonblock, Act.queryQueue, Act.writeAttempt 1,
     Act.queryQueue, Act.reportLine] := by decide
example : writeDataTrace KOther .LOOP 1 none 1 10 ⟨0, 0⟩ =
    [Act.setNonblock, Act.queryQueue, Act.writeAttempt 1] := by decide
example : strtol10 "abc".toList = 0 := by decide
example : strtol10 " -42x".toList = -42 := by decide
example : inputNumber "abc".toList 0 = .ok 0 := by decide
example : inputNumber "abc".toList 1 = .error inputNumberMsg := by decide
example : isNumericStr "abc".toList = false := by decide
example : caseEqStr "FiFo".toList "fifo".toList = true := by decide
example : startsWithStr "inet6-dgram".toList "inet6-".toList = true := by decide
example : parseArgsModel defaultOpts =
    .ok ⟨.IPC_PIPE, .LOOP, 1, -1, 1, false, -1, -1, -1, .SOCK_DGRAM, .PF_LOCAL⟩ := by decide
example : parseArgsModel { defaultOpts with pArg := some "0".toList } =
    .error inputNumberMsg := by decide
example : parseArgsModel { defaultOpts with nArg := some "junk".toList } =
    .ok ⟨.IPC_PIPE, .LOOP, 1, -1, 0, false, -1, -1, -1, .SOCK_DGRAM, .PF_LOCAL⟩ := by decide
example : parseArgsModel { defaultOpts with pArg := some "9".toList, tArg := some "fifo".toList } =
    .error "Setting the pipe size only makes sense with -t pipe." := by decide

/-!
Helper lemmas shared by the claim theorems.
-/

/-- Every `writeChunk` call either returns one of its `-1`/fatal results and
leaves the globals untouched, or returns `wrote n` and performs exactly the
`TOTAL += n` and largest-chunk updates of the success path. -/
theorem writeChunk_shape (k : Nat → WriteRes) :
    ∀ count g, (((writeChunk k count g).1 = ChunkRet.negAgain ∨
        (writeChunk k count g).1 = ChunkRet.negZero ∨
        (writeChunk k count g).1 = ChunkRet.fatal) ∧ (writeChunk k count g).2 = g) ∨
      ∃ n, writeChunk k count g =
        (ChunkRet.wrote n,
          ⟨g.TOTAL + n, if n > g.LARGEST_CHUNK then n else g.LARGEST_CHUNK⟩) := by
  intro count
  induction count using Nat.strong_induction_on with
  | _ count ih =>
    intro g
    rcases hc : count with _ | c1
    · rcases hk : k 0 with n | e
      · right; exact ⟨n, by simp [writeChunk, hk]⟩
      · left; cases e <;> simp [writeChunk, hk]
    · rcases hc1 : c1 with _ | c
      · rcases hk : k 1 with n | e
        · right; exact ⟨n, by simp [writeChunk, hk]⟩
        · left; cases e <;> simp [writeChunk, hk]
      · rcases hk : k (c + 2) with n | e
        · right; exact ⟨n, by simp [writeChunk, hk]⟩
        · cases e
          case EMSGSIZE =>
            have h1 : writeChunk k (c + 2) g = writeChunk k (c + 1) g := by
              simp [writeChunk, hk]
            rw [h1]; exact ih (c + 1) (by omega) g
          case ENOBUFS =>
            have h1 : writeChunk k (c + 2) g = writeChunk k (c + 1) g := by
              simp [writeChunk, hk]
            rw [h1]; exact ih (c + 1) (by omega) g
          case EAGAIN => left; simp [writeChunk, hk]
          case other => left; simp [writeChunk, hk]

/-- On `EMSGSIZE`/`ENOBUFS` with a size of at least two, `writeChunk`
retries the same chunk at exactly one byte less. -/
theorem writeChunk_shrink (k : Nat → WriteRes) (count : Nat) (g : GState)
    (hk : k count = .fail .EMSGSIZE ∨ k count = .fail .ENOBUFS) (h2 : 2 ≤ count) :
    writeChunk k count g = writeChunk k (count - 1) g := by
  rcases count with _ | c1
  · omega
  · rcases c1 with _ | c
    · omega
    · rcases hk with hk | hk <;> simp [writeChunk, hk]

/-- On `EMSGSIZE`/`ENOBUFS` with a size of at most one, `writeChunk` gives
the "Unable to write even a single byte" `-1` return, globals untouched. -/
theorem writeChunk_shrinkZero (k : Nat → WriteRes) (count : Nat) (g : GState)
    (hk : k count = .fail .EMSGSIZE ∨ k count = .fail .ENOBUFS) (h1 : count ≤ 1) :
    writeChunk k count g = (ChunkRet.negZero, g) := by
  rcases count with _ | c1
  · rcases hk with hk | hk <;> simp [writeChunk, hk]
  · rcases c1 with _ | c
    · rcases hk with hk | hk <;> simp [writeChunk, hk]
    · omega

/-- On `EAGAIN`, `writeChunk` returns `-1` at once, globals untouched. -/
theorem writeChunk_again (k : Nat → WriteRes) (count : Nat) (g : GState)
    (hk : k count = .fail .EAGAIN) :
    writeChunk k count g = (ChunkRet.negAgain, g) := by
  rcases count with _ | c1
  · simp [writeChunk, hk]
  · rcases c1 with _ | c <;> simp [writeChunk, hk]

/-- On any other errno, `writeChunk` aborts the process. -/
theorem writeChunk_fatal (k : Nat → WriteRes) (count : Nat) (g : GState)
    (hk : k count = .fail .other) :
    writeChunk k count g = (ChunkRet.fatal, g) := by
  rcases count with _ | c1
  · simp [writeChunk, hk]
  · rcases c1 with _ | c <;> simp [writeChunk, hk]

/-- A write reported as successful is returned as `wrote` with the success
path's global updates. -/
theorem writeChunk_ok (k : Nat → WriteRes) (count n : Nat) (g : GState)
    (hk : k count = .ok n) :
    writeChunk k count g =
      (ChunkRet.wrote n,
        ⟨g.TOTAL + n, if n > g.LARGEST_CHUNK then n else g.LARGEST_CHUNK⟩) := by
  rcases count with _ | c1
  · simp [writeChunk, hk]
  · rcases c1 with _ | c <;> simp [writeChunk, hk]

/-- `TOTAL` never decreases across a `writeChunk` call. -/
theorem writeChunk_total_mono (k : Nat → WriteRes) (count : Nat) (g : GState) :
    g.TOTAL ≤ (writeChunk k count g).2.TOTAL := by
  rcases writeChunk_shape k count g with ⟨_, h2⟩ | ⟨n, h⟩
  · rw [h2]
  · rw [h]; simp

/-- Against a well-formed oracle, one `writeChunk` call adds at most the
requested size to `TOTAL` (shrinking only lowers the bound). -/
theorem writeChunk_total_le (k : Nat → WriteRes) (hk : KernelOK1 k) :
    ∀ count g, (writeChunk k count g).2.TOTAL ≤ g.TOTAL + count := by
  intro count
  induction count using Nat.strong_induction_on with
  | _ count ih =>
    intro g
    rcases hc : count with _ | c1
    · rcases hkc : k 0 with n | e
      · have := hk 0 n hkc
        rw [writeChunk_ok k 0 n g hkc]; simp; omega
      · cases e <;> simp [writeChunk, hkc]
    · rcases hc1 : c1 with _ | c
      · rcases hkc : k 1 with n | e
        · have := hk 1 n hkc
          rw [writeChunk_ok k 1 n g hkc]; simp; omega
        · cases e <;> simp [writeChunk, hkc]
      · rcases hkc : k (c + 2) with n | e
        · have := hk (c + 2) n hkc
          rw [writeChunk_ok k (c + 2) n g hkc]; simp; omega
        · cases e
          case EMSGSIZE =>
            rw [writeChunk_shrink k (c + 2) g (Or.inl hkc) (by omega)]
            have := ih (c + 1) (by omega) g
            simp at this ⊢; omega
          case ENOBUFS =>
            rw [writeChunk_shrink k (c + 2) g (Or.inr hkc) (by omega)]
            have := ih (c + 1) (by omega) g
            simp at this ⊢; omega
          case EAGAIN => rw [writeChunk_again k (c + 2) g hkc]; simp
          case other => rw [writeChunk_fatal k (c + 2) g hkc]; simp

/-- The first entry of the attempt-size list is the requested size. -/
theorem chunkAttempts_head (k : Nat → WriteRes) (count : Nat) :
    (chunkAttempts k count).head? = some count := by
  rcases count with _ | c1
  · simp [chunkAttempts]
  · rcases c1 with _ | c
    · simp [chunkAttempts]
    · simp [chunkAttempts]

/-- The sizes tried within one `writeChunk` call strictly decrease: the
shrink step never repeats or increases a size. -/
theorem chunkAttempts_chain (k : Nat → WriteRes) :
    ∀ count, List.Chain' (fun a b => b < a) (chunkAttempts k count) := by
  intro count
  induction count using Nat.strong_induction_on with
  | _ count ih =>
    rcases hc : count with _ | c1
    · simp [chunkAttempts]
    · rcases hc1 : c1 with _ | c
      · simp [chunkAttempts]
      · rcases hkc : k (c + 2) with n | e
        · simp [chunkAttempts, hkc]
        · cases e <;> simp [chunkAttempts, hkc] <;>
            refine List.chain'_cons'.mpr ⟨?_, ih (c + 1) (by omega)⟩ <;>
            intro b hb <;>
            rw [chunkAttempts_head k (c + 1)] at hb <;>
            simp at hb <;> omega

/-- One `writeChunk` call issues at most `count + 1` write attempts. -/
theorem chunkAttempts_length (k : Nat → WriteRes) :
    ∀ count, (chunkAttempts k count).length ≤ count + 1 := by
  intro count
  induction count using Nat.strong_induction_on with
  | _ count ih =>
    rcases hc : count with _ | c1
    · simp [chunkAttempts]
    · rcases hc1 : c1 with _ | c
      · simp [chunkAttempts]
      · rcases hkc : k (c + 2) with n | e
        · simp [chunkAttempts, hkc]
        · have hlen := ih (c + 1) (by omega)
          cases e <;> simp [chunkAttempts, hkc] <;> omega

/-- A `writeChunk` call that returned `-1` or aborted left the globals
untouched. -/
theorem writeChunk_state_neg (k : Nat → WriteRes) (c : Nat) (g : GState)
    (r : ChunkRet) (g1 : GState) (h : writeChunk k c g = (r, g1))
    (hr : r = ChunkRet.negZero ∨ r = ChunkRet.negAgain ∨ r = ChunkRet.fatal) :
    g1 = g := by
  rcases writeChunk_shape k c g with ⟨h1, h2⟩ | ⟨m, hm⟩
  · rw [h] at h2; exact h2
  · rw [h] at hm
    have hfst : r = ChunkRet.wrote m := by
      have := congrArg Prod.fst hm
      simpa using this
    rcases hr with rfl | rfl | rfl <;> simp at hfst

/-- A `writeChunk` call that returned `wrote n` performed exactly the success
path's global updates. -/
theorem writeChunk_state_wrote (k : Nat → WriteRes) (c : Nat) (g : GState)
    (n : Nat) (g1 : GState) (h : writeChunk k c g = (ChunkRet.wrote n, g1)) :
    g1 = ⟨g.TOTAL + n, if n > g.LARGEST_CHUNK then n else g.LARGEST_CHUNK⟩ := by
  rcases writeChunk_shape k c g with ⟨h1, h2⟩ | ⟨m, hm⟩
  · rw [h] at h1; simp at h1
  · rw [h] at hm
    simp at hm
    rw [hm.2, hm.1]

/-- Growing the size never shrinks it: `count * 2 ≥ count` and
`count + inc ≥ count`. -/
theorem nextCount_ge (inc : Option Nat) (count : Nat) :
    count ≤ nextCount inc count := by
  cases inc <;> simp [nextCount]
  omega

/-- The loop invariant of `writeLoop`: when the loop breaks having started
from size `count`, counter `i`, globals `g` and (ghost) accepted list `acc`,
the new accepted sizes extend `acc`, `TOTAL` grew by exactly their sum plus
the bytes of the breaking call, the sequence of requested sizes from here on
(accepted ones then the breaking one) is non-decreasing and starts at
`count`, the breaking call did not return its full size, and the iteration
counter counts the accepted calls plus one more only when the breaking call
wrote at least one byte. -/
theorem writeLoopGo_spec (K : Nat → Nat → WriteRes) (inc : Option Nat) :
    ∀ fuel count i g acc d,
      writeLoopGo K inc fuel count i g acc = some (.done d) →
      ∃ newAcc,
        d.accepted = acc ++ newAcc ∧
        d.g.TOTAL = g.TOTAL + newAcc.sum + lastBytes d.lastRes ∧
        List.Chain' (· ≤ ·) (newAcc ++ [d.lastReq]) ∧
        (newAcc ++ [d.lastReq]).head? = some count ∧
        d.lastRes ≠ ChunkRet.wrote d.lastReq ∧
        d.i = i + newAcc.length + stopBonus d.lastRes := by
  intro fuel
  induction fuel with
  | zero => intro count i g acc d h; simp [writeLoopGo] at h
  | succ fuel ih =>
    intro count i g acc d h
    rw [writeLoopGo] at h
    rcases hwc : writeChunk (K acc.length) count g with ⟨ret, g1⟩
    rw [hwc] at h
    cases ret with
    | fatal => simp at h
    | negZero =>
        have hg : g1 = g :=
          writeChunk_state_neg (K acc.length) count g _ g1 hwc (Or.inl rfl)
        subst hg
        injection h with h
        injection h with h
        subst h
        exact ⟨[], by simp, by simp [lastBytes], by simp, by simp, by simp,
          by simp [stopBonus]⟩
    | negAgain =>
        have hg : g1 = g :=
          writeChunk_state_neg (K acc.length) count g _ g1 hwc (Or.inr (Or.inl rfl))
        subst hg
        injection h with h
        injection h with h
        subst h
        exact ⟨[], by simp, by simp [lastBytes], by simp, by simp, by simp,
          by simp [stopBonus]⟩
    | wrote n =>
        have hg : g1 = ⟨g.TOTAL + n, if n > g.LARGEST_CHUNK then n else g.LARGEST_CHUNK⟩ :=
          writeChunk_state_wrote (K acc.length) count g n g1 hwc
        by_cases hn : n = count
        · subst hn
          simp only [if_pos rfl] at h
          obtain ⟨newAcc, h1, h2, h3, h4, h5, h6⟩ := ih _ _ _ _ _ h
          refine ⟨n :: newAcc, ?_, ?_, ?_, ?_, h5, ?_⟩
          · rw [h1]; simp
          · rw [h2, hg]; simp [List.sum_cons]; omega
          · refine List.chain'_cons'.mpr ⟨?_, h3⟩
            intro b hb
            simp only [List.append_eq] at hb
            rw [h4] at hb
            simp at hb
            subst hb
            exact nextCount_ge inc n
          · simp
          · rw [h6]; simp; omega
        · simp only [if_neg hn] at h
          injection h with h
          injection h with h
          subst h
          refine ⟨[], by simp, ?_, by simp, by simp, by simpa using hn, ?_⟩
          · rw [hg]; simp [lastBytes]
          · by_cases hp : n > 0 <;> simp [stopBonus, hp]

/-- With no increment configured (`inc == -1`), starting from a power of two
the loop requests exactly the successive powers of two: the accepted sizes
are `2^m, 2^(m+1), ...` and the breaking request is the next power. -/
theorem writeLoopGo_pow (K : Nat → Nat → WriteRes) :
    ∀ fuel m i g acc d,
      writeLoopGo K none fuel (2 ^ m) i g acc = some (.done d) →
      ∃ N, d.accepted = acc ++ (List.range N).map (fun j => 2 ^ (m + j)) ∧
        d.lastReq = 2 ^ (m + N) ∧
        d.i = i + N + stopBonus d.lastRes := by
  intro fuel
  induction fuel with
  | zero => intro m i g acc d h; simp [writeLoopGo] at h
  | succ fuel ih =>
    intro m i g acc d h
    rw [writeLoopGo] at h
    rcases hwc : writeChunk (K acc.length) (2 ^ m) g with ⟨ret, g1⟩
    rw [hwc] at h
    cases ret with
    | fatal => simp at h
    | negZero =>
        injection h with h
        injection h with h
        subst h
        exact ⟨0, by simp, by simp, by simp [stopBonus]⟩
    | negAgain =>
        injection h with h
        injection h with h
        subst h
        exact ⟨0, by simp, by simp, by simp [stopBonus]⟩
    | wrote n =>
        by_cases hn : n = 2 ^ m
        · subst hn
          simp only [if_pos rfl] at h
          have hnext : nextCount none (2 ^ m) = 2 ^ (m + 1) := by
            simp [nextCount, pow_succ]
          rw [hnext] at h
          obtain ⟨N, h1, h2, h3⟩ := ih (m + 1) (i + 1) g1 (acc ++ [2 ^ m]) d h
          have hmap : (List.range N).map (fun j => 2 ^ (m + 1 + j)) =
              (List.range N).map (fun j => 2 ^ (m + (j + 1))) := by
            apply List.map_congr_left
            intro a _
            congr 1
            omega
          refine ⟨N + 1, ?_, ?_, ?_⟩
          · rw [h1, hmap]
            simp [List.range_succ_eq_map, List.map_map, Function.comp]
          · rw [h2]; congr 1; omega
          · rw [h3]; omega
        · simp only [if_neg hn] at h
          injection h with h
          injection h with h
          subst h
          refine ⟨0, by simp, by simp, ?_⟩
          by_cases hp : n > 0 <;> simp [stopBonus, hp]

/-- The drain loop's `total` is always exactly the sum of the byte counts
its reads returned. -/
theorem readDataGo_sum (Q : Nat → Int) (R : Nat → ReadRes) :
    ∀ fuel j total reads t rs,
      total = reads.sum →
      readDataGo Q R fuel j total reads = some (.done t rs) →
      t = rs.sum := by
  intro fuel
  induction fuel with
  | zero => intro j total reads t rs _ h; simp [readDataGo] at h
  | succ fuel ih =>
    intro j total reads t rs hinv h
    rw [readDataGo] at h
    by_cases hq : Q j = 0
    · rw [if_pos hq] at h
      injection h with h
      injection h with h1 h2
      subst h1; subst h2; exact hinv
    · rw [if_neg hq] at h
      rcases hr : R j with n | e
      · rw [hr] at h
        by_cases hn : n = 0
        · subst hn
          simp only [if_pos rfl] at h
          injection h with h
          injection h with h1 h2
          subst h1; subst h2; simp [hinv]
        · simp only [if_neg hn] at h
          exact ih (j + 1) (total + n) (reads ++ [n]) t rs (by simp [hinv]) h
      · rw [hr] at h
        cases e <;> simp at h
        obtain ⟨h1, h2⟩ := h
        subst h1; subst h2; exact hinv

/-- `writeChunk` aborts only on an errno outside the handled set
(`EMSGSIZE`/`ENOBUFS`/`EAGAIN`): an oracle that never answers with the
unhandled class never produces a `fatal` result. -/
theorem writeChunk_not_fatal (k : Nat → WriteRes)
    (hk : ∀ c, k c ≠ .fail .other) :
    ∀ count g, (writeChunk k count g).1 ≠ ChunkRet.fatal := by
  intro count
  induction count using Nat.strong_induction_on with
  | _ count ih =>
    intro g
    rcases hkc : k count with n | e
    · rw [writeChunk_ok k count n g hkc]; simp
    · cases e
      case EMSGSIZE =>
        by_cases h2 : 2 ≤ count
        · rw [writeChunk_shrink k count g (Or.inl hkc) h2]
          exact ih (count - 1) (by omega) g
        · rw [writeChunk_shrinkZero k count g (Or.inl hkc) (by omega)]; simp
      case ENOBUFS =>
        by_cases h2 : 2 ≤ count
        · rw [writeChunk_shrink k count g (Or.inr hkc) h2]
          exact ih (count - 1) (by omega) g
        · rw [writeChunk_shrinkZero k count g (Or.inr hkc) (by omega)]; simp
      case EAGAIN => rw [writeChunk_again k count g hkc]; simp
      case other => exact absurd hkc (hk count)

/-- `TOTAL` never decreases across the chunk-mode for loop (aborted or
not). -/
theorem writeChunksN_total_mono (K : Nat → Nat → WriteRes) (c : Nat) :
    ∀ m j g, g.TOTAL ≤ (writeChunksN K c j m g).g.TOTAL := by
  intro m
  induction m with
  | zero => intro j g; simp [writeChunksN]
  | succ m ih =>
    intro j g
    rcases hwc : writeChunk (K j) c g with ⟨r, g1⟩
    have h1 : g.TOTAL ≤ g1.TOTAL := by
      have := writeChunk_total_mono (K j) c g
      rw [hwc] at this
      exact this
    have h2 := ih (j + 1) g1
    rw [writeChunksN]
    cases r <;> simp [hwc] <;> omega

/-- When the oracle never reports an unhandled errno, the chunk-mode for
loop never aborts and executes exactly its trip count of writes. -/
theorem writeChunksN_complete (K : Nat → Nat → WriteRes) (c : Nat)
    (hK : ∀ j cc, K j cc ≠ .fail .other) :
    ∀ m j g, (writeChunksN K c j m g).aborted = false ∧
      (writeChunksN K c j m g).results.length = m := by
  intro m
  induction m with
  | zero => intro j g; simp [writeChunksN]
  | succ m ih =>
    intro j g
    rcases hwc : writeChunk (K j) c g with ⟨r, g1⟩
    have hnf : r ≠ ChunkRet.fatal := by
      have := writeChunk_not_fatal (K j) (fun cc => hK j cc) c g
      rw [hwc] at this
      simpa using this
    obtain ⟨ha, hl⟩ := ih (j + 1) g1
    rw [writeChunksN]
    cases r with
    | fatal => exact absurd rfl hnf
    | negZero => simp [hwc]; exact ⟨ha, hl⟩
    | negAgain => simp [hwc]; exact ⟨ha, hl⟩
    | wrote n => simp [hwc]; exact ⟨ha, hl⟩

/-- Against a well-formed oracle, the chunk-mode for loop adds at most
`m * c` bytes to `TOTAL` (an abort only lowers the count). -/
theorem writeChunksN_total_le (K : Nat → Nat → WriteRes) (c : Nat)
    (hK : KernelOK K) :
    ∀ m j g, (writeChunksN K c j m g).g.TOTAL ≤ g.TOTAL + m * c := by
  intro m
  induction m with
  | zero => intro j g; simp [writeChunksN]
  | succ m ih =>
    intro j g
    rcases hwc : writeChunk (K j) c g with ⟨r, g1⟩
    have h1 : g1.TOTAL ≤ g.TOTAL + c := by
      have := writeChunk_total_le (K j) (hK j) c g
      rw [hwc] at this
      exact this
    have h2 := ih (j + 1) g1
    have hmc : (m + 1) * c = m * c + c := by ring
    rw [writeChunksN]
    cases r <;> simp [hwc] <;> omega

/-- Against an oracle that accepts every write in full, no call aborts and
the chunk-mode for loop adds exactly `m * c` bytes to `TOTAL`. -/
theorem writeChunksN_total_full (K : Nat → Nat → WriteRes)
    (hK : ∀ j c, K j c = .ok c) (c : Nat) :
    ∀ m j g, (writeChunksN K c j m g).g.TOTAL = g.TOTAL + m * c := by
  intro m
  induction m with
  | zero => intro j g; simp [writeChunksN]
  | succ m ih =>
    intro j g
    rw [writeChunksN]
    rw [writeChunk_ok (K j) c c g (hK j c)]
    have h2 := ih (j + 1) ⟨g.TOTAL + c, if c > g.LARGEST_CHUNK then c else g.LARGEST_CHUNK⟩
    simp at h2 ⊢
    rw [h2]
    ring

/-- Against an oracle that accepts every zero-byte write by reporting `0`
bytes written (what a pipe does), the doubling loop started at size `0`
never stops: the request stays `0` and every call is a full success. -/
theorem writeLoopGo_zero_none :
    ∀ fuel i g acc, writeLoopGo KZero none fuel 0 i g acc = none := by
  intro fuel
  induction fuel with
  | zero => intro i g acc; simp [writeLoopGo]
  | succ fuel ih =>
    intro i g acc
    rw [writeLoopGo]
    rw [writeChunk_ok (KZero acc.length) 0 0 g rfl]
    simp [nextCount]
    exact ih (i + 1) _ (acc ++ [0])

/-- When every oracle answer is a size-class failure or a success, the
shrink-and-retry process can only end in the "not even one byte" `-1`
return (size reached zero) or in a successful write. -/
theorem writeChunk_reaches (k : Nat → WriteRes)
    (hk : ∀ c, k c = .fail .EMSGSIZE ∨ k c = .fail .ENOBUFS ∨ ∃ n, k c = .ok n) :
    ∀ count g, (writeChunk k count g).1 = ChunkRet.negZero ∨
      ∃ n, (writeChunk k count g).1 = ChunkRet.wrote n := by
  intro count
  induction count using Nat.strong_induction_on with
  | _ count ih =>
    intro g
    rcases hk count with hkc | hkc | ⟨n, hkc⟩
    · by_cases h2 : 2 ≤ count
      · rw [writeChunk_shrink k count g (Or.inl hkc) h2]
        exact ih (count - 1) (by omega) g
      · rw [writeChunk_shrinkZero k count g (Or.inl hkc) (by omega)]
        left; rfl
    · by_cases h2 : 2 ≤ count
      · rw [writeChunk_shrink k count g (Or.inr hkc) h2]
        exact ih (count - 1) (by omega) g
      · rw [writeChunk_shrinkZero k count g (Or.inr hkc) (by omega)]
        left; rfl
    · right
      exact ⟨n, by rw [writeChunk_ok k count n g hkc]⟩

/-- `TOTAL` never decreases across a whole chunk-mode run, aborted or
not. -/
theorem writeDataChunk_total_mono (K : Nat → Nat → WriteRes) (c1 : Nat)
    (c2 : Option Nat) (num : Nat) (g : GState) :
    g.TOTAL ≤ (writeDataChunk K c1 c2 num g).g.TOTAL := by
  rcases h1 : writeChunk (K 0) c1 g with ⟨r1, g1⟩
  have m1 := writeChunk_total_mono (K 0) c1 g
  rw [h1] at m1
  simp at m1
  have m2 := writeChunksN_total_mono K (chunkEff c1 c2) (num - chunkStart c2) 1 g1
  simp only [writeDataChunk]
  cases r1 <;> simp [h1] <;> omega

/-!
The claim theorems.
-/

/-- C1: every single write attempt is classified three ways.  A failure of
the `EMSGSIZE`/`ENOBUFS` class shrinks the requested size by exactly one
byte and retries the same logical chunk, returning the "Unable to write even
a single byte" `-1` when the size reaches zero; an `EAGAIN` failure returns
`-1` with the state untouched — in loop mode this ends the strategy's
progression at once (the loop returns `done`, not the fatal result); any
other failure aborts the run fatally. -/
theorem writeChunk_outcome_classification (k : Nat → WriteRes) (count : Nat)
    (g : GState) :
    ((k count = .fail .EMSGSIZE ∨ k count = .fail .ENOBUFS) →
      (2 ≤ count → writeChunk k count g = writeChunk k (count - 1) g) ∧
      (count ≤ 1 → writeChunk k count g = (ChunkRet.negZero, g))) ∧
    (k count = .fail .EAGAIN → writeChunk k count g = (ChunkRet.negAgain, g)) ∧
    (∀ (K : Nat → Nat → WriteRes) (inc : Option Nat) (fuel i : Nat) (acc : List Nat),
      K acc.length count = .fail .EAGAIN →
      writeLoopGo K inc (fuel + 1) count i g acc =
        some (.done ⟨i, g, acc, count, ChunkRet.negAgain⟩)) ∧
    (k count = .fail .other → writeChunk k count g = (ChunkRet.fatal, g)) := by
  refine ⟨fun hk => ⟨fun h2 => writeChunk_shrink k count g hk h2,
      fun h1 => writeChunk_shrinkZero k count g hk h1⟩,
    fun hk => writeChunk_again k count g hk, ?_,
    fun hk => writeChunk_fatal k count g hk⟩
  intro K inc fuel i acc hK
  rw [writeLoopGo, writeChunk_again (K acc.length) count g hK]

/-- C10: a single write attempt is atomic for the probe state.  When
`writeChunk` returns `-1` (would-block or shrunk to zero), `TOTAL` and
`LARGEST_CHUNK` are unchanged; when it returns `n ≥ 0` — including a partial
write with `n` below the requested size — `TOTAL` grows by exactly `n` and
`LARGEST_CHUNK` becomes the maximum of its old value and `n`. -/
theorem writeChunk_state_atomicity (k : Nat → WriteRes) (count : Nat)
    (g : GState) :
    (((writeChunk k count g).1 = ChunkRet.negAgain ∨
      (writeChunk k count g).1 = ChunkRet.negZero) →
      (writeChunk k count g).2 = g) ∧
    (∀ n, (writeChunk k count g).1 = ChunkRet.wrote n →
      (writeChunk k count g).2.TOTAL = g.TOTAL + n ∧
      (writeChunk k count g).2.LARGEST_CHUNK = max g.LARGEST_CHUNK n) := by
  rcases hs : writeChunk k count g with ⟨r, g1⟩
  constructor
  · intro hr
    simp only at hr ⊢
    refine writeChunk_state_neg k count g r g1 hs ?_
    rcases hr with h | h
    · exact Or.inr (Or.inl h)
    · exact Or.inl h
  · intro n hn
    simp only at hn
    subst hn
    have := writeChunk_state_wrote k count g n g1 hs
    subst this
    constructor
    · rfl
    · show (if n > g.LARGEST_CHUNK then n else g.LARGEST_CHUNK) = max g.LARGEST_CHUNK n
      split <;> omega

/-- C5: the shrink-on-message-too-large step terminates and never increases
the size.  Within one logical chunk the attempted sizes strictly decrease
from the requested size, there are at most `count + 1` of them, and when the
oracle only ever answers with size-class failures or successes the process
ends at zero ("not even one byte") or in a successful write. -/
theorem shrink_step_terminating (k : Nat → WriteRes) (count : Nat) (g : GState) :
    List.Chain' (fun a b => b < a) (chunkAttempts k count) ∧
    (chunkAttempts k count).head? = some count ∧
    (chunkAttempts k count).length ≤ count + 1 ∧
    ((∀ c, k c = .fail .EMSGSIZE ∨ k c = .fail .ENOBUFS ∨ ∃ n, k c = .ok n) →
      (writeChunk k count g).1 = ChunkRet.negZero ∨
      ∃ n, (writeChunk k count g).1 = ChunkRet.wrote n) :=
  ⟨chunkAttempts_chain k count, chunkAttempts_head k count,
    chunkAttempts_length k count, fun hk => writeChunk_reaches k hk count g⟩

/-- C4: loop-mode runs are monotonic and account exactly.  From any loop
state (current size `count`, counter `i`, globals `g`, accepted-so-far
`acc`), when the loop breaks: the newly accepted chunk sizes followed by the
breaking request form a non-decreasing sequence starting at `count` (sizes
grow by doubling or by the configured non-negative increment), the running
total grew by exactly the sum of the newly accepted sizes (plus the bytes of
the breaking partial write, if any), and the loop stopped on the first
write that did not return its full requested size; a hard error in a
`writeChunk` call ends the loop at once with the fatal result. -/
theorem loopMode_monotone_total (K : Nat → Nat → WriteRes) (inc : Option Nat)
    (fuel count i : Nat) (g : GState) (acc : List Nat) :
    (∀ d, writeLoopGo K inc fuel count i g acc = some (.done d) →
      ∃ newAcc, d.accepted = acc ++ newAcc ∧
        List.Chain' (· ≤ ·) (newAcc ++ [d.lastReq]) ∧
        (newAcc ++ [d.lastReq]).head? = some count ∧
        d.g.TOTAL = g.TOTAL + newAcc.sum + lastBytes d.lastRes ∧
        d.lastRes ≠ ChunkRet.wrote d.lastReq) ∧
    (∀ g1, writeChunk (K acc.length) count g = (ChunkRet.fatal, g1) →
      writeLoopGo K inc (fuel + 1) count i g acc = some (.fatal g1)) := by
  constructor
  · intro d h
    obtain ⟨newAcc, h1, h2, h3, h4, h5, _⟩ := writeLoopGo_spec K inc fuel count i g acc d h
    exact ⟨newAcc, h1, h3, h4, h2, h5⟩
  · intro g1 h
    rw [writeLoopGo, h]

/-- C3 counterexample: when the channel is already full, the very first
write attempt (size 1) reports would-block, the loop breaks without
counting it (`if (n > 0) i++` does not fire for the `-1` return), and the
reported iteration count is `0` — not "accepted writes plus the one write
that triggered the stop" `= 0 + 1` as claimed. -/
theorem loopMode_iterations_cex :
    writeLoopGo KAgain none 3 1 0 ⟨0, 0⟩ [] =
      some (.done ⟨0, ⟨0, 0⟩, [], 1, ChunkRet.negAgain⟩) ∧
    (0 : Nat) ≠ 0 + 1 :=
  ⟨by decide, by decide⟩

/-- C3 (amended): in loop mode with initial size 1 and no explicit
increment, the attempted sizes double each iteration — the accepted sizes
are `1, 2, 4, …, 2^(N-1)` and the breaking request is `2^N` — and the
reported iteration count equals the number of fully accepted writes, plus
one more exactly when the write that triggered the stop itself wrote at
least one byte (a trailing partial write); a stop on a would-block that
wrote nothing is not counted. -/
theorem loopMode_doubling (K : Nat → Nat → WriteRes) (fuel : Nat) (g : GState)
    (d : LoopDone) (h : writeLoopGo K none fuel 1 0 g [] = some (.done d)) :
    ∃ N, d.accepted = (List.range N).map (fun j => 2 ^ j) ∧
      d.lastReq = 2 ^ N ∧
      d.i = N + stopBonus d.lastRes := by
  have h0 : (1 : Nat) = 2 ^ 0 := rfl
  rw [h0] at h
  obtain ⟨N, h1, h2, h3⟩ := writeLoopGo_pow K fuel 0 0 g [] d h
  refine ⟨N, ?_, by simpa using h2, by simpa using h3⟩
  rw [h1]
  simp

/-- C3 witness: a pipe that accepts the first two writes in full and then
reports would-block runs the doubling loop through sizes 1, 2 and breaks at
4 with iteration count 2. -/
theorem loopMode_doubling_witness :
    ∃ N, (⟨2, ⟨3, 2⟩, [1, 2], 4, ChunkRet.negAgain⟩ : LoopDone).accepted =
        (List.range N).map (fun j => 2 ^ j) ∧
      (⟨2, ⟨3, 2⟩, [1, 2], 4, ChunkRet.negAgain⟩ : LoopDone).lastReq = 2 ^ N ∧
      (⟨2, ⟨3, 2⟩, [1, 2], 4, ChunkRet.negAgain⟩ : LoopDone).i =
        N + stopBonus (⟨2, ⟨3, 2⟩, [1, 2], 4, ChunkRet.negAgain⟩ : LoopDone).lastRes :=
  loopMode_doubling KCap2 4 ⟨0, 0⟩ ⟨2, ⟨3, 2⟩, [1, 2], 4, ChunkRet.negAgain⟩ (by decide)

/-- C2 counterexample: chunk mode with initial size 1, the second size
unset and additional-chunk count 1, against a kernel that accepts every
write in full.  The claim predicts one initial write plus one additional
write (2 writes, 2 bytes); the program performs a single write of 1 byte,
because `if (CHUNK2 < 1) { i = 1; ... }` makes the for loop start at 1. -/
theorem chunkMode_count_cex :
    writeDataChunk KOk 1 none 1 ⟨0, 0⟩ = ⟨⟨1, 1⟩, [ChunkRet.wrote 1], false⟩ ∧
    (writeDataChunk KOk 1 none 1 ⟨0, 0⟩).results.length ≠ 1 + 1 ∧
    (writeDataChunk KOk 1 none 1 ⟨0, 0⟩).g.TOTAL ≠ 0 + 1 + 1 * 1 :=
  ⟨by decide, by decide, by decide⟩

/-- C2 (amended): in chunk mode the probe performs one write of the initial
size and then — as long as no write hits the `err(EXIT_FAILURE, "write")`
abort — `NUM_CHUNKS - chunkStart c2` further writes of the effective second
size: exactly `NUM_CHUNKS` additional writes when a second size `≥ 1` is
configured, but only `NUM_CHUNKS - 1` when the second size is unset (or
`0`) and defaults to the initial size.  Each write is attempted whatever
the non-fatal outcomes (would-block, partial write, shrink-to-zero) of the
earlier ones were, while a fatal write aborts the process mid-burst, ending
the burst at that call.  Against a well-formed kernel the total grows by at
most `c1 + (NUM_CHUNKS - chunkStart c2) * chunkEff c1 c2`, with equality
when every write fully succeeds. -/
theorem chunkMode_accounting (K : Nat → Nat → WriteRes) (c1 : Nat)
    (c2 : Option Nat) (num : Nat) (g : GState) :
    ((∀ j c, K j c ≠ .fail .other) →
      (writeDataChunk K c1 c2 num g).aborted = false ∧
      (writeDataChunk K c1 c2 num g).results.length = 1 + (num - chunkStart c2)) ∧
    (∀ g1, writeChunk (K 0) c1 g = (ChunkRet.fatal, g1) →
      writeDataChunk K c1 c2 num g = ⟨g1, [ChunkRet.fatal], true⟩) ∧
    (KernelOK K →
      (writeDataChunk K c1 c2 num g).g.TOTAL ≤
        g.TOTAL + c1 + (num - chunkStart c2) * chunkEff c1 c2) ∧
    ((∀ j c, K j c = .ok c) →
      (writeDataChunk K c1 c2 num g).g.TOTAL =
        g.TOTAL + c1 + (num - chunkStart c2) * chunkEff c1 c2) := by
  refine ⟨?_, ?_, ?_, ?_⟩
  · intro hK
    rcases h1 : writeChunk (K 0) c1 g with ⟨r1, g1⟩
    have hnf : r1 ≠ ChunkRet.fatal := by
      have := writeChunk_not_fatal (K 0) (fun cc => hK 0 cc) c1 g
      rw [h1] at this
      simpa using this
    obtain ⟨ha, hl⟩ :=
      writeChunksN_complete K (chunkEff c1 c2) hK (num - chunkStart c2) 1 g1
    simp only [writeDataChunk]
    cases r1 with
    | fatal => exact absurd rfl hnf
    | negZero => simp [h1]; exact ⟨ha, by omega⟩
    | negAgain => simp [h1]; exact ⟨ha, by omega⟩
    | wrote n => simp [h1]; exact ⟨ha, by omega⟩
  · intro g1 h
    simp [writeDataChunk, h]
  · intro hK
    rcases h1 : writeChunk (K 0) c1 g with ⟨r1, g1⟩
    have m1 : g1.TOTAL ≤ g.TOTAL + c1 := by
      have := writeChunk_total_le (K 0) (hK 0) c1 g
      rw [h1] at this
      simpa using this
    have m2 := writeChunksN_total_le K (chunkEff c1 c2) hK (num - chunkStart c2) 1 g1
    simp only [writeDataChunk]
    cases r1 <;> simp [h1] <;> omega
  · intro hK
    have h1 := writeChunk_ok (K 0) c1 c1 g (hK 0 c1)
    have m2 := writeChunksN_total_full K hK (chunkEff c1 c2) (num - chunkStart c2) 1
      ⟨g.TOTAL + c1, if c1 > g.LARGEST_CHUNK then c1 else g.LARGEST_CHUNK⟩
    simp only [writeDataChunk]
    rw [h1]
    simp at m2 ⊢
    omega

/-- C2 witness: with a configured second size 2 and two additional chunks
against a fully accepting kernel, the burst never aborts, all three writes
run, and the byte bound holds with equality. -/
theorem chunkMode_accounting_witness :
    ((∀ j c, KOk j c ≠ .fail .other) →
      (writeDataChunk KOk 3 (some 2) 2 ⟨0, 0⟩).aborted = false ∧
      (writeDataChunk KOk 3 (some 2) 2 ⟨0, 0⟩).results.length =
        1 + (2 - chunkStart (some 2))) ∧
    (∀ g1, writeChunk (KOk 0) 3 ⟨0, 0⟩ = (ChunkRet.fatal, g1) →
      writeDataChunk KOk 3 (some 2) 2 ⟨0, 0⟩ = ⟨g1, [ChunkRet.fatal], true⟩) ∧
    (KernelOK KOk →
      (writeDataChunk KOk 3 (some 2) 2 ⟨0, 0⟩).g.TOTAL ≤
        (⟨0, 0⟩ : GState).TOTAL + 3 + (2 - chunkStart (some 2)) * chunkEff 3 (some 2)) ∧
    ((∀ j c, KOk j c = .ok c) →
      (writeDataChunk KOk 3 (some 2) 2 ⟨0, 0⟩).g.TOTAL =
        (⟨0, 0⟩ : GState).TOTAL + 3 + (2 - chunkStart (some 2)) * chunkEff 3 (some 2)) :=
  chunkMode_accounting KOk 3 (some 2) 2 ⟨0, 0⟩

/-- C6: the drain engine reads into a buffer at least as large as the
largest chunk the probe ever wrote; it stops at once when the queried
read-queue depth is exactly zero (reading nothing more), stops on a
would-block read and on a zero-length read (EOF) — accumulating exactly the
bytes each read returned — and any other read failure is fatal. -/
theorem drain_engine_spec (Q : Nat → Int) (R : Nat → ReadRes) (largest : Nat) :
    largest ≤ bufsizOf largest ∧
    (∀ fuel j t rs, Q j = 0 →
      readDataGo Q R (fuel + 1) j t rs = some (.done t rs)) ∧
    (∀ fuel j t rs, Q j ≠ 0 → R j = .fail .EAGAIN →
      readDataGo Q R (fuel + 1) j t rs = some (.done t rs)) ∧
    (∀ fuel j t rs, Q j ≠ 0 → R j = .ok 0 →
      readDataGo Q R (fuel + 1) j t rs = some (.done (t + 0) (rs ++ [0]))) ∧
    (∀ fuel j t rs e, Q j ≠ 0 → R j = .fail e → e ≠ .EAGAIN →
      readDataGo Q R (fuel + 1) j t rs = some .fatalErr) ∧
    (∀ fuel t rs, readDataGo Q R fuel 0 0 [] = some (.done t rs) → t = rs.sum) := by
  refine ⟨?_, ?_, ?_, ?_, ?_, ?_⟩
  · unfold bufsizOf
    split <;> omega
  · intro fuel j t rs hq
    rw [readDataGo, if_pos hq]
  · intro fuel j t rs hq hr
    rw [readDataGo, if_neg hq, hr]
  · intro fuel j t rs hq hr
    rw [readDataGo, if_neg hq, hr]
    simp
  · intro fuel j t rs e hq hr he
    rw [readDataGo, if_neg hq, hr]
    cases e
    case EAGAIN => exact absurd rfl he
    all_goals rfl
  · intro fuel t rs h
    exact readDataGo_sum Q R fuel 0 0 [] t rs (by simp) h

/-- C7 counterexample: a loop-mode probe run with initial chunk size 0 and
no increment (doubling) does not terminate when the kernel accepts the
zero-byte writes by reporting 0 bytes written (a pipe does): the size stays
0, every call is a full success, and the loop never stops — against the
claim that a zero-size probe run still terminates. -/
theorem zeroChunk_loop_cex : loopTerminatesFrom KZero 0 = False := by
  apply eq_false
  rintro ⟨fuel, r, h⟩
  rw [writeLoopGo_zero_none fuel 0 ⟨0, 0⟩ []] at h
  exact Option.noConfusion h

/-- C7 (amended): for every channel variant `writeData` makes the write
endpoint nonblocking as its first action, before any probe write, and
`readData` makes the read endpoint nonblocking before any drain read; a
chunk-mode probe run with initial size 0 terminates (it is a total
function of the model) with a total no smaller than it started, but a
loop-mode run with initial size 0 and doubling never terminates when the
kernel accepts zero-byte writes. -/
theorem nonblocking_before_io (K : Nat → Nat → WriteRes) (mode : Mode)
    (c1 : Nat) (c2 : Option Nat) (num fuel : Nat) (g : GState)
    (Q : Nat → Int) (R : Nat → ReadRes) (largest fr : Nat) :
    (writeDataTrace K mode c1 c2 num fuel g).head? = some Act.setNonblock ∧
    (∀ idx c, (writeDataTrace K mode c1 c2 num fuel g)[idx]? =
      some (Act.writeAttempt c) → 0 < idx) ∧
    (readDataTrace Q R largest fr).head? = some Act.setNonblock ∧
    (∀ idx b, (readDataTrace Q R largest fr)[idx]? =
      some (Act.readAttempt b) → 0 < idx) ∧
    g.TOTAL ≤ (writeDataChunk K 0 c2 num g).g.TOTAL ∧
    loopTerminatesFrom KZero 0 = False := by
  refine ⟨rfl, ?_, rfl, ?_, writeDataChunk_total_mono K 0 c2 num g, ?_⟩
  · intro idx c h
    cases idx with
    | zero => simp [writeDataTrace] at h
    | succ m => omega
  · intro idx b h
    cases idx with
    | zero => simp [readDataTrace] at h
    | succ m => omega
  · apply eq_false
    rintro ⟨fuel1, r, h⟩
    rw [writeLoopGo_zero_none fuel1 0 ⟨0, 0⟩ []] at h
    exact Option.noConfusion h

/-- C8: an explicit pipe-capacity request (`-P`) on a platform without the
`F_SETPIPE_SZ` control terminates the run fatally right after the pipe is
created: the whole remaining trace is the single clearly labeled fatal exit
with status `1 ≠ 0`, so no output of a successful run (and no write) ever
happens; with no explicit request the set operation is silently skipped and
the run proceeds unchanged on every platform. -/
theorem pipeSize_platform_spec (n : Nat) (rest : List Act) (b : Bool) :
    doPipeTrace false (some n) rest =
      [Act.createPipe, Act.fatalMsgExit pipeSizeMsg 1] ∧
    (1 : Nat) ≠ 0 ∧
    Act.reportLine ∉ doPipeTrace false (some n) rest ∧
    (∀ c, Act.writeAttempt c ∉ doPipeTrace false (some n) rest) ∧
    doPipeTrace b none rest = Act.createPipe :: rest ∧
    setPipeSize b none = PipeSizeOutcome.skipped := by
  have htr : doPipeTrace false (some n) rest =
      [Act.createPipe, Act.fatalMsgExit pipeSizeMsg 1] := by
    simp [doPipeTrace, setPipeSize]
  refine ⟨htr, by omega, ?_, ?_, ?_, ?_⟩
  · rw [htr]; simp
  · intro c; rw [htr]; simp
  · simp [doPipeTrace, setPipeSize]
  · rfl

/-- C9 counterexample: the non-numeric argument "abc" handed to a
threshold-0 numeric option (the `-n` count, or a positional chunk size) is
parsed by `strtol` as 0 — no digits, `endptr` is NULL — and accepted: the
run proceeds with the value 0 and no fatal exit, against the claim that
every non-numeric numeric-argument is detected and fatal. -/
theorem configError_nonNumeric_cex :
    isNumericStr "abc".toList = false ∧
    inputNumber "abc".toList 0 = Except.ok 0 ∧
    parseArgsModel { defaultOpts with nArg := some "abc".toList } =
      Except.ok ⟨.IPC_PIPE, .LOOP, 1, -1, 0, false, -1, -1, -1, .SOCK_DGRAM, .PF_LOCAL⟩ :=
  ⟨by decide, by decide, by decide⟩

/-- C9 (amended): every configuration error `parseArgs` does detect — an
invalid option/variant combination, an invalid socket type, too many
positional arguments, or a numeric argument whose `strtol` value is below
the option's threshold — is detected before any resource is created (the
trace is the single fatal exit with status 1 and contains no resource
creation), and `inputNumber` rejects exactly the arguments whose `strtol`
value is below the threshold: a non-numeric argument parses as its numeric
prefix (0 when there is none) and passes any threshold `≤ 0` silently. -/
theorem configErrors_before_resources (o : CmdOpts)
    (runOf : RunConfig → List Act) :
    (∀ e, parseArgsModel o = .error e →
      mainTrace o runOf = [Act.fatalMsgExit "configuration error" 1] ∧
      Act.createPipe ∉ mainTrace o runOf ∧
      Act.createFifo ∉ mainTrace o runOf ∧
      Act.createSocket ∉ mainTrace o runOf ∧
      Act.createSocketPair ∉ mainTrace o runOf) ∧
    (∀ s t, inputNumber s t = .error inputNumberMsg ↔ strtol10 s < t) := by
  constructor
  · intro e he
    have htr : mainTrace o runOf = [Act.fatalMsgExit "configuration error" 1] := by
      simp [mainTrace, he]
    refine ⟨htr, ?_, ?_, ?_, ?_⟩ <;> rw [htr] <;> simp
  · intro s t
    unfold inputNumber
    split
    · simp_all
    · simp_all
